import Mathlib

/-!
Verification of the paperbot ingestion pipeline against its specification.

The development shallowly embeds the Python sources:
  src/as.py                                 (metadata fetch and abstract decoding)
  src/paperbot/services/export_service.py   (Markdown / BibTeX / CSV export)
  src/paperbot/gui/app.py                   (fetch cycle)
  src/paperbot/__main__.py                  (shutdown hook)

Conventions: Python strings are Lean Strings; Python dicts are ordered
association lists (Python dicts iterate in insertion order); Python `None`
is `Option.none`; a Python function that can fall off the end without a
`return` statement is modelled with an explicit constructor for the
implicit `None` result; raised exceptions are modelled by an explicit
outcome type at the boundary where the source catches them.
-/

namespace Paperbot

/-! ### Metadata decoder — src/as.py, get_paper_info, lines 19-27 -/

/-- An inverted index as returned by the metadata service: each entry maps a
word to its list of integer positions.  The list order models Python dict
iteration order (insertion order). -/
abbrev InvIndex := List (String × List Int)

/-- The `word_counts` dict of the source: position to word, as an ordered
association list (Python dict: existing keys keep their slot, new keys are
appended). -/
abbrev PosMap := List (Int × String)

/-- Python dict assignment `word_counts[pos] = word`: if the key is present the
value is overwritten in place, otherwise the pair is appended. -/
def dictInsert (m : PosMap) (p : Int) (w : String) : PosMap :=
  if m.any (fun kv => kv.1 == p) then
    m.map (fun kv => if kv.1 == p then (kv.1, w) else kv)
  else m ++ [(p, w)]

/-- The inner loop `for pos in pos_list: word_counts[pos] = word`. -/
def insertPositions (m : PosMap) (w : String) (ps : List Int) : PosMap :=
  ps.foldl (fun acc p => dictInsert acc p w) m

/-- The outer loop `for word, pos_list in inv_index.items(): ...` building the
`word_counts` dict from the empty dict. -/
def buildWordCounts (idx : InvIndex) : PosMap :=
  idx.foldl (fun m wp => insertPositions m wp.1 wp.2) []

/-- `word_counts.keys()` in iteration order. -/
def mapKeys (m : PosMap) : List Int := m.map Prod.fst

/-- Dict subscript `word_counts[i]`, as an optional lookup of the first entry
with the given key. -/
def lookupPos : PosMap → Int → Option String
  | [], _ => none
  | kv :: t, p => if kv.1 == p then some kv.2 else lookupPos t p

/-- Python `sorted` on a list of integers, modelled by insertion sort. -/
def pySorted (l : List Int) : List Int :=
  List.insertionSort (fun a b => a ≤ b) l

/-- Lines 23-27 of src/as.py for a non-empty index:
`' '.join([word_counts[i] for i in sorted(word_counts.keys())])`.
Every sorted key is a key of the dict, so each lookup succeeds and
`filterMap` drops nothing. -/
def decodeInv (idx : InvIndex) : String :=
  let m := buildWordCounts idx
  String.intercalate " " ((pySorted (mapKeys m)).filterMap (lookupPos m))

/-- Lines 19-27 of src/as.py: `data.get('abstract_inverted_index')` may be
absent (`none`); `abstract = "N/A"`; `if inv_index:` is Python truthiness, so
an empty dict keeps the sentinel as well. -/
def reconstructAbstract (inv : Option InvIndex) : String :=
  match inv with
  | none => "N/A"
  | some idx => if idx.isEmpty then "N/A" else decodeInv idx

/-! ### Specification-side decoder, for the refinement in C1.

Modelled from the spec wording: build a position-to-word mapping by iterating
every (word, position) pair with last-write-wins on collisions, then take all
populated positions in ascending numeric order and join the corresponding
words with single spaces. -/

/-- The sequence of (word, position) writes performed by the two nested loops,
in iteration order. -/
def writeSeq (idx : InvIndex) : List (String × Int) :=
  idx.flatMap (fun wp => wp.2.map (fun p => (wp.1, p)))

/-- The word that the last write to position `p` assigned, if any
(last-write-wins conflict policy). -/
def lastWrite (pairs : List (String × Int)) (p : Int) : Option String :=
  (pairs.reverse.find? (fun wp => wp.2 == p)).map Prod.fst

/-- The populated positions, in ascending numeric order. -/
def specPositions (idx : InvIndex) : List Int :=
  pySorted ((writeSeq idx).map Prod.snd).dedup

/-- The decoder as the specification words it. -/
def decodeSpec (idx : InvIndex) : String :=
  String.intercalate " " ((specPositions idx).filterMap (lastWrite (writeSeq idx)))

/-! ### Correctness lemmas for the decoder refinement (claim C1) -/

/-- The write sequence folded directly into a dict. -/
def buildFromWrites (L : List (String × Int)) : PosMap :=
  L.foldl (fun m wp => dictInsert m wp.2 wp.1) []

theorem insertPositions_eq_foldl (w : String) (ps : List Int) (m : PosMap) :
    insertPositions m w ps =
      (ps.map (fun p => (w, p))).foldl (fun m wp => dictInsert m wp.2 wp.1) m := by
  induction ps generalizing m with
  | nil => rfl
  | cons p ps ih =>
      simp only [List.map_cons, List.foldl_cons]
      exact ih (dictInsert m p w)

theorem buildWordCounts_eq_buildFromWrites (idx : InvIndex) :
    buildWordCounts idx = buildFromWrites (writeSeq idx) := by
  suffices h : ∀ (idx : InvIndex) (m : PosMap),
      idx.foldl (fun m wp => insertPositions m wp.1 wp.2) m =
        (writeSeq idx).foldl (fun m wp => dictInsert m wp.2 wp.1) m by
    exact h idx []
  intro idx
  induction idx with
  | nil => intro m; rfl
  | cons x t ih =>
      intro m
      simp only [List.foldl_cons, writeSeq, List.flatMap_cons, List.foldl_append,
        ← insertPositions_eq_foldl]
      exact ih _

theorem isSome_lookupPos (m : PosMap) (p : Int) :
    (lookupPos m p).isSome = m.any (fun kv => kv.1 == p) := by
  induction m with
  | nil => rfl
  | cons kv t ih =>
      by_cases h : kv.1 = p
      · simp [lookupPos, h]
      · simp [lookupPos, h, ih]

theorem lookupPos_overwrite (m : PosMap) (p : Int) (w : String) (q : Int) :
    lookupPos (m.map (fun kv => if kv.1 == p then (kv.1, w) else kv)) q =
      if q = p then (lookupPos m p).map (fun _ => w) else lookupPos m q := by
  induction m with
  | nil => simp [lookupPos]
  | cons kv t ih =>
      simp only [beq_iff_eq] at ih
      simp only [beq_iff_eq, List.map_cons]
      by_cases hp : kv.1 = p
      · by_cases hq : q = p
        · subst hq
          simp [lookupPos, hp]
        · have hkq : ¬kv.1 = q := by omega
          have hpq : ¬p = q := by omega
          simp [lookupPos, hp, hq, hkq, hpq, ih]
      · by_cases hq : q = p
        · subst hq
          simp [lookupPos, hp, ih]
        · by_cases hkq : kv.1 = q
          · simp [lookupPos, hp, hq, hkq]
          · simp [lookupPos, hp, hq, hkq, ih]

theorem lookupPos_append (m₁ m₂ : PosMap) (q : Int) :
    lookupPos (m₁ ++ m₂) q =
      match lookupPos m₁ q with
      | some v => some v
      | none => lookupPos m₂ q := by
  induction m₁ with
  | nil => simp [lookupPos]
  | cons kv t ih =>
      by_cases h : kv.1 = q
      · simp [lookupPos, h]
      · simp [lookupPos, h, ih]

theorem lookupPos_dictInsert (m : PosMap) (p : Int) (w : String) (q : Int) :
    lookupPos (dictInsert m p w) q = if q = p then some w else lookupPos m q := by
  unfold dictInsert
  by_cases hany : (m.any fun kv => kv.1 == p) = true
  · rw [if_pos hany, lookupPos_overwrite]
    by_cases hq : q = p
    · subst hq
      have hs : (lookupPos m q).isSome := by rw [isSome_lookupPos]; exact hany
      obtain ⟨v, hv⟩ := Option.isSome_iff_exists.mp hs
      simp [hv]
    · simp [hq]
  · rw [if_neg hany, lookupPos_append]
    have hnone : lookupPos m p = none := by
      have := isSome_lookupPos m p
      simp only [Bool.not_eq_true] at hany
      rw [hany] at this
      exact Option.not_isSome_iff_eq_none.mp (by simp [this])
    by_cases hq : q = p
    · subst hq; simp [hnone, lookupPos]
    · cases hl : lookupPos m q with
      | some v => simp [hl, hq]
      | none => simp [hl, lookupPos, hq, Ne.symm hq]

theorem buildFromWrites_append (L : List (String × Int)) (wp : String × Int) :
    buildFromWrites (L ++ [wp]) = dictInsert (buildFromWrites L) wp.2 wp.1 := by
  rw [buildFromWrites, List.foldl_append]
  rfl

theorem lastWrite_append_singleton (L : List (String × Int)) (wp : String × Int) (q : Int) :
    lastWrite (L ++ [wp]) q = if wp.2 = q then some wp.1 else lastWrite L q := by
  unfold lastWrite
  rw [List.reverse_append]
  by_cases h : wp.2 = q
  · simp [h]
  · simp [h]

theorem lookupPos_buildFromWrites (L : List (String × Int)) (q : Int) :
    lookupPos (buildFromWrites L) q = lastWrite L q := by
  induction L using List.reverseRecOn with
  | nil => rfl
  | append_singleton L wp ih =>
      rw [buildFromWrites_append, lookupPos_dictInsert, lastWrite_append_singleton, ih]
      by_cases h : wp.2 = q
      · simp [h]
      · rw [if_neg (fun hh : q = wp.2 => h hh.symm), if_neg h]

theorem mem_mapKeys_iff_isSome (m : PosMap) (q : Int) :
    q ∈ mapKeys m ↔ (lookupPos m q).isSome := by
  induction m with
  | nil => simp [mapKeys, lookupPos]
  | cons kv t ih =>
      simp only [mapKeys, List.map_cons, List.mem_cons] at ih ⊢
      by_cases h : kv.1 = q
      · simp [lookupPos, h]
      · simp [lookupPos, h, Ne.symm h, ih]

theorem isSome_lastWrite_iff (L : List (String × Int)) (q : Int) :
    (lastWrite L q).isSome ↔ q ∈ L.map Prod.snd := by
  unfold lastWrite
  rw [Option.isSome_map', List.find?_isSome]
  constructor
  · rintro ⟨x, hx, hq⟩
    rw [List.mem_reverse] at hx
    exact List.mem_map.mpr ⟨x, hx, by simpa using hq⟩
  · intro hq
    obtain ⟨x, hx, hxq⟩ := List.mem_map.mp hq
    exact ⟨x, List.mem_reverse.mpr hx, by simp [hxq]⟩

theorem mem_mapKeys_buildFromWrites (L : List (String × Int)) (q : Int) :
    q ∈ mapKeys (buildFromWrites L) ↔ q ∈ L.map Prod.snd := by
  rw [mem_mapKeys_iff_isSome, lookupPos_buildFromWrites, isSome_lastWrite_iff]

theorem mapKeys_dictInsert (m : PosMap) (p : Int) (w : String) :
    mapKeys (dictInsert m p w) =
      if (lookupPos m p).isSome then mapKeys m else mapKeys m ++ [p] := by
  unfold dictInsert
  rw [isSome_lookupPos]
  by_cases hany : (m.any fun kv => kv.1 == p) = true
  · rw [if_pos hany, if_pos hany]
    unfold mapKeys
    rw [List.map_map]
    apply List.map_congr_left
    intro kv _
    by_cases h : kv.1 = p <;> simp [h]
  · rw [if_neg hany, if_neg hany]
    simp [mapKeys]

theorem nodup_mapKeys_buildFromWrites (L : List (String × Int)) :
    (mapKeys (buildFromWrites L)).Nodup := by
  induction L using List.reverseRecOn with
  | nil => simp [buildFromWrites, mapKeys]
  | append_singleton L wp ih =>
      rw [buildFromWrites_append, mapKeys_dictInsert]
      by_cases h : (lookupPos (buildFromWrites L) wp.2).isSome
      · simpa [h] using ih
      · rw [if_neg (by simp [h])]
        have hmem : wp.2 ∉ mapKeys (buildFromWrites L) := by
          rw [mem_mapKeys_iff_isSome]
          simpa using h
        rw [(List.perm_append_singleton wp.2 (mapKeys (buildFromWrites L))).nodup_iff]
        exact List.nodup_cons.mpr ⟨hmem, ih⟩

theorem pySorted_keys_eq (L : List (String × Int)) :
    pySorted (mapKeys (buildFromWrites L)) = pySorted ((L.map Prod.snd).dedup) := by
  have h1 : List.Perm (pySorted (mapKeys (buildFromWrites L))) (mapKeys (buildFromWrites L)) :=
    List.perm_insertionSort _ _
  have h2 : List.Perm (pySorted ((L.map Prod.snd).dedup)) ((L.map Prod.snd).dedup) :=
    List.perm_insertionSort _ _
  have h3 : List.Perm (mapKeys (buildFromWrites L)) ((L.map Prod.snd).dedup) := by
    rw [List.perm_ext_iff_of_nodup (nodup_mapKeys_buildFromWrites L) (List.nodup_dedup _)]
    intro a
    rw [mem_mapKeys_buildFromWrites, List.mem_dedup]
  have hs1 : List.Sorted (fun a b : Int => a ≤ b) (pySorted (mapKeys (buildFromWrites L))) :=
    List.sorted_insertionSort _ _
  have hs2 : List.Sorted (fun a b : Int => a ≤ b) (pySorted ((L.map Prod.snd).dedup)) :=
    List.sorted_insertionSort _ _
  exact List.eq_of_perm_of_sorted (h1.trans (h3.trans h2.symm)) hs1 hs2

theorem decodeInv_eq_decodeSpec (idx : InvIndex) : decodeInv idx = decodeSpec idx := by
  simp only [decodeInv, decodeSpec, specPositions]
  rw [buildWordCounts_eq_buildFromWrites, pySorted_keys_eq]
  have hfun : lookupPos (buildFromWrites (writeSeq idx)) = lastWrite (writeSeq idx) := by
    funext q
    exact lookupPos_buildFromWrites _ q
  rw [hfun]


/-! ### Metadata fetch — src/as.py, get_paper_info -/

/-- The JSON payload fields of a completed metadata-service response that
get_paper_info consumes: `authorships[].author.display_name`,
`primary_location.source.display_name` (absent modelled as `none`), and
`abstract_inverted_index` (absent modelled as `none`). -/
structure ApiData where
  authorships : List String
  journalName : Option String
  invIndex : Option InvIndex
deriving DecidableEq

/-- The observable outcome of the HTTP request together with the JSON
handling inside the `try` block: either the request completed with a status
code (and, for status 200, parsed data), or some step raised an exception
(network error, timeout, JSON parse failure) carrying message `msg`. -/
inductive HttpOutcome where
  | completed (statusCode : Int) (data : ApiData)
  | raised (msg : String)
deriving DecidableEq

/-- The value returned by get_paper_info: the info dict, the error dict built
by the `except` clause, or the implicit Python `None` when control falls off
the end of the function (status other than 200, no exception). -/
inductive FetchResult where
  | info (authors : List String) (journal : String) (abstract : String)
  | errorDict (msg : String)
  | pyNone
deriving DecidableEq

/-- src/as.py lines 7-35: the body of get_paper_info after the request.  The
`except Exception` clause returns the error dict; on status 200 the authors,
journal (with default "N/A") and decoded abstract are returned; on any other
status the function returns `None` implicitly. -/
def get_paper_info (outcome : HttpOutcome) : FetchResult :=
  match outcome with
  | .raised msg => .errorDict msg
  | .completed status data =>
      if status = 200 then
        .info data.authorships (data.journalName.getD "N/A")
          (reconstructAbstract data.invIndex)
      else .pyNone

/-- An outbound HTTP request as issued by src/as.py lines 5-8: the fields are
method, formatted URL and timeout; `contact` records any contact
identification attached to the request (header or mailto parameter).  The
source calls `requests.get(url, timeout=10)` with no further arguments, so no
contact identification is attached. -/
structure HttpRequest where
  method : String
  url : String
  timeout : Int
  contact : Option String
deriving DecidableEq

/-- src/as.py lines 5-8: the single request issued per DOI. -/
def buildRequest (doi : String) : HttpRequest :=
  ⟨"GET", "https://api.openalex.org/works/https://doi.org/" ++ doi, 10, none⟩

/-! ### Claims C1-C4 -/

/-- Claim C1: for every non-empty inverted index, the decoder builds a
position-to-word map with last-write-wins on collisions and returns the words
of all populated positions in ascending numeric position order joined with
single spaces (formalised as agreement with the specification-side decoder
`decodeSpec`); in particular decoding the index sending "the" to positions 0
and 2 and "cat" to position 1 yields "the cat the". -/
theorem C1_decoder_algorithm :
    (∀ idx : InvIndex, idx ≠ [] → reconstructAbstract (some idx) = decodeSpec idx) ∧
      reconstructAbstract (some [("the", [0, 2]), ("cat", [1])]) = "the cat the" := by
  constructor
  · intro idx h
    have hne : idx.isEmpty = false := by
      cases idx with
      | nil => exact absurd rfl h
      | cons a t => rfl
    simp [reconstructAbstract, hne, decodeInv_eq_decodeSpec]
  · decide

/-- Witness for C1 at a concrete non-empty index. -/
theorem C1_decoder_algorithm_witness :
    reconstructAbstract (some [("cat", [1]), ("the", [0, 2])]) =
      decodeSpec [("cat", [1]), ("the", [0, 2])] :=
  C1_decoder_algorithm.1 [("cat", [1]), ("the", [0, 2])] (by decide)

/-- Counterexample to claim C2 as stated: on an absent inverted index the code
returns the sentinel "N/A", not "unavailable". -/
theorem C2_counterexample : reconstructAbstract none ≠ "unavailable" := by decide

/-- Claim C2 (amended): the decoder is a total function, and when the inverted
index is absent or empty the returned abstract is the sentinel string "N/A". -/
theorem C2_sentinel (inv : Option InvIndex) (h : inv = none ∨ inv = some []) :
    reconstructAbstract inv = "N/A" := by
  rcases h with h | h <;> subst h <;> rfl

/-- Witness for C2 (amended) at the absent index. -/
theorem C2_sentinel_witness : reconstructAbstract none = "N/A" :=
  C2_sentinel none (Or.inl rfl)

/-- Counterexample to claim C3 as stated: a completed response with HTTP
status 404 makes get_paper_info fall off the end of the function, returning
the absent result `None` instead of an error value. -/
theorem C3_counterexample :
    get_paper_info (.completed 404 ⟨[], none, none⟩) = .pyNone := by decide

/-- Claim C3 (amended): when the request raises a network error, timeout or
parse failure the fetch returns the error dict carrying the exception
message; when the request completes with any status other than 200 it
returns the absent result `None`. -/
theorem C3_fetch_error_handling (outcome : HttpOutcome) :
    (∀ msg, outcome = .raised msg → get_paper_info outcome = .errorDict msg) ∧
      (∀ status data, outcome = .completed status data → status ≠ 200 →
        get_paper_info outcome = .pyNone) := by
  constructor
  · rintro msg rfl
    rfl
  · rintro status data rfl h
    simp [get_paper_info, h]

/-- Witness for C3 (amended) at a concrete raised outcome. -/
theorem C3_fetch_error_handling_witness :
    get_paper_info (.raised "timeout") = .errorDict "timeout" :=
  (C3_fetch_error_handling (.raised "timeout")).1 "timeout" rfl

/-- Counterexample to claim C4 as stated: the request built for a concrete DOI
carries no contact identifier at all. -/
theorem C4_counterexample :
    (buildRequest "10.1038/s41586-020-2012-7").contact = none := rfl

/-- Claim C4 (amended): every metadata-service request is a GET to the URL
template base/works/https://doi.org/doi with a timeout of 10 time units, but
it carries no contact identifier. -/
theorem C4_request_shape (doi : String) :
    (buildRequest doi).method = "GET" ∧
      (buildRequest doi).url = "https://api.openalex.org/works/https://doi.org/" ++ doi ∧
      (buildRequest doi).timeout = 10 ∧
      (buildRequest doi).contact = none :=
  ⟨rfl, rfl, rfl, rfl⟩


/-! ### Python string helpers for the export service -/

/-- Python truthiness-based `x or default` for an optional string. -/
def pyOr (o : Option String) (d : String) : String :=
  match o with
  | none => d
  | some s => if s = "" then d else s

/-- Python truthiness of an optional string. -/
def isTruthy (o : Option String) : Bool :=
  match o with
  | none => false
  | some s => s ≠ ""

/-- Python slice `s[:n]`. -/
def takeChars (s : String) (n : Nat) : String := String.mk (s.toList.take n)

/-- Python slice `s[a:b]`. -/
def sliceChars (s : String) (a b : Nat) : String :=
  String.mk ((s.toList.drop a).take (b - a))

/-- Python `str.strip()`. -/
def pyStrip (s : String) : String :=
  String.mk (((s.toList.dropWhile Char.isWhitespace).reverse.dropWhile
    Char.isWhitespace).reverse)

/-- Python `str.lower()` restricted to ASCII case mapping. -/
def pyLower (s : String) : String := String.mk (s.toList.map Char.toLower)

/-- A character the regex class `\w` matches, restricted to ASCII as in the
inputs the service produces. -/
def pyIsWordChar (c : Char) : Bool := c.isAlphanum || c == '_'

/-- `re.sub(r"[^\w\s]", "", s)`: drop every character that is neither a word
character nor whitespace. -/
def stripNonWord (s : String) : String :=
  String.mk (s.toList.filter (fun c => pyIsWordChar c || c.isWhitespace))

/-- Helper for `str.split()`: accumulate the current word (reversed) while
scanning. -/
def splitWsAux : List Char → List Char → List String
  | [], cur => if cur.isEmpty then [] else [String.mk cur.reverse]
  | c :: rest, cur =>
      if c.isWhitespace then
        if cur.isEmpty then splitWsAux rest []
        else String.mk cur.reverse :: splitWsAux rest []
      else splitWsAux rest (c :: cur)

/-- Python `str.split()` with no separator: split on whitespace runs, no empty
parts. -/
def splitWs (s : String) : List String := splitWsAux s.toList []

/-- Helper for `re.split(r"[;,]", s)`: split at every semicolon or comma,
keeping empty parts. -/
def splitSCAux : List Char → List Char → List String
  | [], cur => [String.mk cur.reverse]
  | c :: rest, cur =>
      if c == ';' || c == ',' then String.mk cur.reverse :: splitSCAux rest []
      else splitSCAux rest (c :: cur)

/-- `re.split(r"[;,]", s)`. -/
def splitSC (s : String) : List String := splitSCAux s.toList []

/-! ### Export service -- src/paperbot/services/export_service.py -/

/-- The record fields the export service reads (src/paperbot/models/paper.py
is thin data; the fields are those consumed in export_service.py). -/
structure Paper where
  id : Option Nat
  title : Option String
  authors : Option String
  journal : Option String
  published : Option String
  doi : Option String
  link : Option String
  created_at : Option String
deriving DecidableEq

/-- export_service.py lines 15-21. -/
def _bib_slug (title : String) (paper_id : Nat) : String :=
  if title = "" then "paper_" ++ toString paper_id
  else
    let words := (splitWs (stripNonWord title)).take 3
    let slug := takeChars
      (String.intercalate "_" ((words.filter (fun w => w ≠ "")).map pyLower)) 40
    if slug = "" then "paper_" ++ toString paper_id else slug

/-- export_service.py lines 24-35. -/
def _bib_author (authors : Option String) : String :=
  match authors with
  | none => "Unknown"
  | some s =>
      if pyStrip s = "" then "Unknown"
      else
        let parts := ((splitSC s).map pyStrip).filter (fun p => p ≠ "")
        if parts = [] then "Unknown"
        else if parts.length > 3 then
          String.intercalate " and " (parts.take 3) ++ " and others"
        else String.intercalate " and " parts

/-- Python `s.replace("{", "{{").replace("}", "}}")` (braces escaped by
doubling). -/
def escBraces (s : String) : String :=
  (s.replace "\x7b" "\x7b\x7b").replace "\x7d" "\x7d\x7d"

/-- One BibTeX entry, export_service.py lines 42-62. -/
def texBlock (p : Paper) : String :=
  let published := pyOr p.published ""
  let year0 := takeChars published 4
  let year := if year0 = "" then "0000" else year0
  let month := if published.length ≥ 7 then sliceChars (pyOr p.published "-") 5 7 else "01"
  let day := if published.length ≥ 10 then sliceChars (pyOr p.published "-") 8 10 else "01"
  let slug := _bib_slug (pyOr p.title "") (p.id.getD 0)
  let key := match p.id with
    | some i => "paperbot_" ++ year ++ "_" ++ toString i ++ "_" ++ slug
    | none => "paperbot_" ++ year ++ "_" ++ slug
  let author := _bib_author p.authors
  let title := escBraces (pyOr p.title "")
  let journal := escBraces (pyOr p.journal "")
  let doi := pyStrip (pyOr p.doi "")
  let block := "@article\x7b" ++ key ++ ",\n  author  = \x7b" ++ author ++
    "\x7d,\n  title   = \x7b" ++ title ++ "\x7d,\n  journal = \x7b" ++ journal ++
    "\x7d,\n  year    = \x7b" ++ year ++ "\x7d,\n  month   = \x7b" ++ month ++
    "\x7d,\n  day     = \x7b" ++ day ++ "\x7d,\n  doi     = \x7b" ++ doi ++ "\x7d,"
  let block := if doi ≠ "" then
      block ++ "\n  url     = \x7bhttps://doi.org/" ++ doi ++ "\x7d"
    else block
  block ++ "\n\x7d\n"

/-- export_service.py lines 38-63: the loop appending one block per paper,
then `"\n".join(lines)`. -/
def _content_tex (papers : List Paper) : String :=
  String.intercalate "\n" (papers.foldl (fun lines p => lines ++ [texBlock p]) [])

/-- The authors display of the Markdown format, lines 77-81. -/
def mdAuthorsDisplay (authors : String) : String :=
  let parts := ((splitSC authors).map pyStrip).filter (fun x => x ≠ "")
  if parts.length > 3 then String.intercalate ", " (parts.take 3) ++ ", et al."
  else String.intercalate ", " parts

/-- The lines the Markdown loop body appends for one paper, lines 70-89. -/
def mdPaperLines (p : Paper) : List String :=
  (["## " ++ pyOr p.title "(No title)" ++ "\n"] ++
    (if isTruthy p.journal then ["- **Journal**: " ++ pyOr p.journal ""] else []) ++
    (let authors := pyStrip (pyOr p.authors "")
     if authors ≠ "" then ["- **Authors**: " ++ mdAuthorsDisplay authors] else []) ++
    (if isTruthy p.published then
        ["- **Published**: " ++ takeChars (pyOr p.published "") 10] else []) ++
    (if isTruthy p.doi then
        ["- **DOI**: [" ++ pyOr p.doi "" ++ "](https://doi.org/" ++ pyOr p.doi "" ++ ")"]
      else if isTruthy p.link then ["- **Link**: " ++ pyOr p.link ""] else []) ++
    [""])

/-- export_service.py lines 66-90: header line, loop appending per-paper
lines, then `"\n".join(lines)`. -/
def _content_md (papers : List Paper) (export_date : String) : String :=
  String.intercalate "\n"
    (papers.foldl (fun lines p => lines ++ mdPaperLines p)
      ["# PaperBot Export List (" ++ export_date ++ ")\n"])

/-- One CSV field under the default csv.writer dialect: QUOTE_MINIMAL quoting
with doubled quote characters. -/
def csvField (s : String) : String :=
  if s.toList.any (fun c => c == ',' || c == '"' || c == '\n' || c == '\r') then
    "\"" ++ (s.replace "\"" "\"\"") ++ "\""
  else s

/-- One `writerow` call: comma-joined fields terminated by CRLF. -/
def csvRow (fields : List String) : String :=
  String.intercalate "," (fields.map csvField) ++ "\r\n"

/-- The field list of one paper row, export_service.py lines 100-115. -/
def csvPaperRow (p : Paper) : List String :=
  let authors := pyStrip ((pyOr p.authors "").replace "," "; ")
  let added := if isTruthy p.created_at then takeChars (pyOr p.created_at "") 10 else ""
  let pub := if isTruthy p.published then takeChars (pyOr p.published "") 10 else ""
  [pyOr p.title "", pyOr p.journal "", authors, pub, pyOr p.doi "", added]

/-- export_service.py lines 93-116: the header row followed by one row per
paper, concatenated in write order. -/
def _content_csv (papers : List Paper) : String :=
  String.join (papers.foldl (fun rows p => rows ++ [csvRow (csvPaperRow p)])
    [csvRow ["Title", "Journal", "Authors", "Date_Published", "DOI", "Added_Date"]])

/-- The clock values the exporter reads: `now.strftime("%Y-%m-%d_%H%M")` and
`now.strftime("%Y-%m-%d")` of one fixed `datetime.now()` call. -/
structure Clock where
  stamp : String
  date : String
deriving DecidableEq

/-- The EXT table, export_service.py line 12, as `EXT.get`. -/
def EXT (fmt : String) : Option String :=
  if fmt = "tex" then some ".bib"
  else if fmt = "md" then some ".md"
  else if fmt = "csv" then some ".csv"
  else none

/-- The observable result of MarkdownExporter.export: the subdirectory, the
file name written under it, and the file content. -/
structure ExportRun where
  subdirName : String
  fileName : String
  content : String
deriving DecidableEq

/-- MarkdownExporter.export, export_service.py lines 131-164: extension from
`EXT.get(format, ".md")`, content chosen by format with Markdown as the
default branch, file `stamp + ext` under the subdirectory. -/
def exportRun (papers : List Paper) (subdir fmt : String) (now : Clock) : ExportRun :=
  let ext := (EXT fmt).getD ".md"
  let content :=
    if fmt = "tex" then _content_tex papers
    else if fmt = "csv" then _content_csv papers
    else _content_md papers now.date
  ⟨subdir, now.stamp ++ ext, content⟩

/-! ### Fetch cycle — src/paperbot/gui/app.py, _do_fetch -/

/-- A repository operation performed by the fetch cycle, in invocation
order. -/
inductive FetchEvent where
  | archiveOldNew
  | upsert (p : Paper)
deriving DecidableEq

/-- app.py lines 195-204: the fetch cycle first calls repo.archive_old_new()
and then upserts each candidate of the stream in order, counting new and
processed records.  `isNew p` models the boolean repo.upsert returns. -/
def doFetchOps (candidates : List Paper) (isNew : Paper → Bool) :
    List FetchEvent × Nat × Nat :=
  candidates.foldl
    (fun acc p =>
      (acc.1 ++ [FetchEvent.upsert p],
        acc.2.1 + (if isNew p then 1 else 0), acc.2.2 + 1))
    ([FetchEvent.archiveOldNew], 0, 0)

theorem doFetch_foldl_fst (cs : List Paper) (f : Paper → Bool)
    (acc : List FetchEvent × Nat × Nat) :
    (cs.foldl (fun acc p => (acc.1 ++ [FetchEvent.upsert p],
        acc.2.1 + (if f p then 1 else 0), acc.2.2 + 1)) acc).1 =
      acc.1 ++ cs.map FetchEvent.upsert := by
  induction cs generalizing acc with
  | nil => simp
  | cons q t ih => simp [ih]

/-- app.py lines 196-199: `workers = min(8, (os.cpu_count() or 2) - 1);
workers = max(1, workers)`.  The argument is the value os.cpu_count()
returned; Python `or 2` replaces both None and 0 by 2, and the arithmetic is
on unbounded integers. -/
def fetchWorkers (cpuCount : Option Int) : Int :=
  let n : Int := match cpuCount with
    | none => 2
    | some c => if c = 0 then 2 else c
  max 1 (min 8 (n - 1))

/-! ### Shutdown hook — src/paperbot/__main__.py, _reset_picked_on_exit -/

/-- The outcome of the try-block body of the hook (imports, Settings.load,
repository construction, reset_all_picked): success, or an exception with a
message. -/
inductive HookOutcome where
  | ok
  | raised (msg : String)
deriving DecidableEq

/-- The behaviour of the hook itself at process exit: return normally or
propagate an exception to the interpreter shutdown machinery. -/
inductive HookResult where
  | returned
  | propagated (msg : String)
deriving DecidableEq

/-- __main__.py lines 15-24: the whole body sits in
`try: ... except Exception: pass`, so every raised exception is swallowed. -/
def resetPickedOnExit (outcome : HookOutcome) : HookResult :=
  match outcome with
  | .ok => .returned
  | .raised _ => .returned

/-! ### Claims C5-C10 -/

/-- Claim C5: in every fetch cycle the archiving sweep is invoked exactly once
and strictly before any upsert: the operation trace is the archive event
followed by one upsert per candidate in stream order. -/
theorem C5_archive_before_upserts (candidates : List Paper) (isNew : Paper → Bool) :
    (doFetchOps candidates isNew).1 =
        FetchEvent.archiveOldNew :: candidates.map FetchEvent.upsert ∧
      (doFetchOps candidates isNew).1.count FetchEvent.archiveOldNew = 1 := by
  have h : (doFetchOps candidates isNew).1 =
      FetchEvent.archiveOldNew :: candidates.map FetchEvent.upsert := by
    rw [doFetchOps, doFetch_foldl_fst]
    rfl
  refine ⟨h, ?_⟩
  rw [h, List.count_cons_self]
  have hz : (candidates.map FetchEvent.upsert).count FetchEvent.archiveOldNew = 0 := by
    rw [List.count_eq_zero]
    intro hmem
    obtain ⟨p, _, hpe⟩ := List.mem_map.mp hmem
    exact FetchEvent.noConfusion hpe
  rw [hz]

/-- Claim C6: the BibTeX slug is the first three alphanumeric words of the
title, lower-cased and underscore-joined, capped at 40 characters, with
fallback paper_id when no usable words remain: the two documented examples
hold, and every slug is at most 40 characters long unless it is the
fallback. -/
theorem C6_bib_slug :
    (∀ i : Nat, _bib_slug "A Study, of Things!" i = "a_study_of") ∧
      _bib_slug "" 7 = "paper_7" ∧
      ∀ (t : String) (i : Nat),
        (_bib_slug t i).length ≤ 40 ∨ _bib_slug t i = "paper_" ++ toString i := by
  refine ⟨fun i => ?_, by decide, fun t i => ?_⟩
  · dsimp only [_bib_slug]
    rw [if_neg (by decide), if_neg (by decide)]
    decide
  have hlen : ∀ (s : String) (n : Nat), (takeChars s n).length ≤ n := by
    intro s n
    have h : (takeChars s n).length = (s.toList.take n).length := rfl
    rw [h, List.length_take]
    omega
  dsimp only [_bib_slug]
  split
  · exact Or.inr rfl
  · split
    · exact Or.inr rfl
    · exact Or.inl (hlen _ _)

theorem foldl_append_acc {α β : Type} (f : α → List β) (l : List α) (acc : List β) :
    l.foldl (fun lines x => lines ++ f x) acc = acc ++ l.flatMap f := by
  induction l generalizing acc with
  | nil => simp
  | cons x t ih => simp [ih]

theorem flatMap_singleton_eq_map {α β : Type} (f : α → β) (l : List α) :
    l.flatMap (fun x => [f x]) = l.map f := by
  induction l with
  | nil => rfl
  | cons x t ih => simp [ih]

/-- Claim C7: two export runs over the same record list, same format and the
clock held fixed produce byte-identical results, and each format renders the
supplied records strictly in order (the accumulating loops equal the in-order
concatenation of the per-record renderings). -/
theorem C7_export_deterministic (ps₁ ps₂ : List Paper) (sd₁ sd₂ f₁ f₂ : String)
    (c₁ c₂ : Clock) (hp : ps₁ = ps₂) (hs : sd₁ = sd₂) (hf : f₁ = f₂) (hc : c₁ = c₂) :
    exportRun ps₁ sd₁ f₁ c₁ = exportRun ps₂ sd₂ f₂ c₂ ∧
      (∀ (ps : List Paper) (d : String),
        _content_md ps d = String.intercalate "\n"
          (("# PaperBot Export List (" ++ d ++ ")\n") :: ps.flatMap mdPaperLines)) ∧
      (∀ ps : List Paper, _content_tex ps = String.intercalate "\n" (ps.map texBlock)) ∧
      (∀ ps : List Paper, _content_csv ps = String.join
        (csvRow ["Title", "Journal", "Authors", "Date_Published", "DOI", "Added_Date"] ::
          ps.map (fun p => csvRow (csvPaperRow p)))) := by
  subst hp
  subst hs
  subst hf
  subst hc
  refine ⟨rfl, ?_, ?_, ?_⟩
  · intro ps d
    rw [_content_md, foldl_append_acc]
    rfl
  · intro ps
    rw [_content_tex, foldl_append_acc, flatMap_singleton_eq_map]
    rfl
  · intro ps
    rw [_content_csv, foldl_append_acc, flatMap_singleton_eq_map]
    rfl

/-- Witness for C7 at concrete equal inputs. -/
theorem C7_export_deterministic_witness :
    exportRun [] "picked" "md" ⟨"2024-01-01_1200", "2024-01-01"⟩ =
      exportRun [] "picked" "md" ⟨"2024-01-01_1200", "2024-01-01"⟩ :=
  (C7_export_deterministic [] [] "picked" "picked" "md" "md"
    ⟨"2024-01-01_1200", "2024-01-01"⟩ ⟨"2024-01-01_1200", "2024-01-01"⟩
    rfl rfl rfl rfl).1

/-- Claim C8: the worker bound of a fetch cycle equals
max(1, min(8, availableParallelism - 1)) for every available-parallelism
value reported by os.cpu_count(). -/
theorem C8_worker_bound (n : Int) :
    fetchWorkers (some n) = max 1 (min 8 (n - 1)) := by
  dsimp only [fetchWorkers]
  by_cases h : n = 0
  · subst h
    decide
  · rw [if_neg h]

/-- Claim C9: the shutdown hook never raises: whatever the body of the hook
does, including raising an exception, the hook returns normally and never
aborts process exit. -/
theorem C9_shutdown_hook_never_raises (outcome : HookOutcome) :
    resetPickedOnExit outcome = HookResult.returned := by
  cases outcome <;> rfl

/-- Claim C10: for every format argument outside tex, md and csv, the export
still succeeds, renders the records as Markdown and writes the file with the
.md extension. -/
theorem C10_unknown_format (papers : List Paper) (subdir fmt : String) (now : Clock)
    (h1 : fmt ≠ "tex") (h2 : fmt ≠ "md") (h3 : fmt ≠ "csv") :
    exportRun papers subdir fmt now =
      ⟨subdir, now.stamp ++ ".md", _content_md papers now.date⟩ := by
  simp [exportRun, EXT, h1, h2, h3]

/-- Witness for C10 at the unrecognized format "xml". -/
theorem C10_unknown_format_witness :
    exportRun [] "picked" "xml" ⟨"2024-01-01_1200", "2024-01-01"⟩ =
      ⟨"picked", "2024-01-01_1200.md", _content_md [] "2024-01-01"⟩ :=
  C10_unknown_format [] "picked" "xml" ⟨"2024-01-01_1200", "2024-01-01"⟩
    (by decide) (by decide) (by decide)

end Paperbot
